import Mathlib

/-!
Verification of the zcash_eth_bridge driver core against its natural-language
specification.  The definitions below are a shallow embedding of the Rust
source:

* `src/src/zcash/sender.rs`   — the TZE transaction builder (`TzeSender`),
* `src/src/zcash/watcher.rs`  — `extract_zec_to_eth_transfers`,
* `src/src/eth/watcher.rs`    — `extract_eth_to_zec_transfers`,
* `src/src/zebra_client/client.rs` — `get_address_utxos_with_mempool`,
* `src/src/zebra_client/helpers.rs` — `spendable_coinbase_txid`.

Machine integers (`u64` amounts held in `Zatoshis`) are modelled as `Nat`
with the checked operations of the `Zatoshis` newtype made explicit
(`Option`-valued addition bounded by `MAX_MONEY`, `Option`-valued
subtraction failing below zero).  Rust panics (`unwrap`, `assert!`,
`expect`, out-of-bounds indexing) and recoverable errors (`?` on a
`Result`) are modelled as distinct error outcomes.  Opaque 32-byte hashes,
20-byte addresses and script bytes are modelled as `Nat` / `List Nat`
identifiers: the code under verification only moves them around and
compares them for equality.  External collaborators (the extension
builder, the RPC clients, the Chain-E provider) are modelled as
environment records whose fields decide the outcome of each external call.
-/

namespace ZcashEthBridge

/-- Upper bound enforced by checked `Zatoshis` addition
(21,000,000 ZEC in zatoshis). -/
def MAX_MONEY : Nat := 2100000000000000

/-- Checked `Zatoshis` addition (`Add for Zatoshis` returns `Option`):
`none` when the sum exceeds `MAX_MONEY`. -/
def zatAdd (a b : Nat) : Option Nat :=
  if a + b ≤ MAX_MONEY then some (a + b) else none

/-- Checked `Zatoshis` subtraction (`Sub for Zatoshis` returns `Option`):
`none` when the result would be negative. -/
def zatSub (a b : Nat) : Option Nat :=
  if b ≤ a then some (a - b) else none

/-- `LOCK_IN_VALUE` from `sender.rs`: the amount locked in the TZE STF
output so that it is not considered dust. -/
def LOCK_IN_VALUE : Nat := 100000

/-- `EXTENSION_ETH_BRIDGE` from `zcash_extensions::consensus::transparent`:
the fixed extension id of the bridge extension (external crate; an opaque
but fixed constant). -/
def EXTENSION_ETH_BRIDGE : Nat := 2

/-- Wire mode tag of a CREATE precondition (external extension codec;
opaque but fixed, distinct from the other modes). -/
def MODE_CREATE : Nat := 0

/-- Wire mode tag of a DEPOSIT precondition. -/
def MODE_DEPOSIT : Nat := 1

/-- Wire mode tag of an STF precondition. -/
def MODE_STF : Nat := 2

/-- `zcash_transparent::address::TransparentAddress`: a transparent
public-key-hash or script-hash address; the 20-byte hash is opaque. -/
inductive TransparentAddress where
  | publicKeyHash (h : Nat)
  | scriptHash (h : Nat)
deriving DecidableEq

/-- `tze::OutPoint`: a transaction id (opaque 32-byte hash, modelled as
`Nat`) together with a vout index. -/
structure TzeOutPoint where
  txid : Nat
  n : Nat
deriving DecidableEq

/-- `zcash_primitives::extensions::transparent::Precondition`. -/
structure TzePrecondition where
  extensionId : Nat
  mode : Nat
  payload : List Nat
deriving DecidableEq

/-- `zcash_primitives::transaction::components::TzeOut`. -/
structure TzeOut where
  value : Nat
  precondition : TzePrecondition
deriving DecidableEq

/-- `eth_bridge::modes::stf::ProcessedDeposit` (the `to` field is named
`toAddr` here). -/
structure ProcessedDeposit where
  toAddr : Nat
  amount : Nat
deriving DecidableEq

/-- `eth_bridge::modes::stf::ProcessedWithdrawal`. -/
structure ProcessedWithdrawal where
  pubkeyHash : Nat
  amount : Nat
deriving DecidableEq

/-- The in-memory state of `TzeSender` that the verified code reads or
writes: the recorded fee transaction id, the `deposited` counter, the
deployment constants, and the wallet's own transparent address (the
target of every fee-change output, `wallet.derive_key(0, 0)`). -/
structure TzeSender where
  feeTxid : Nat
  deposited : Nat
  stfIdentifier : Nat
  rootHash : Nat
  selfAddr : TransparentAddress
deriving DecidableEq

/-- Outcome class of a failed send: `panic` models an `unwrap`, `assert!`
or `expect` firing (the process aborts); `buildErr` models a `Result`
error propagated with `?` (the `TzeSender` object survives). -/
inductive SendErr where
  | panic
  | buildErr
deriving DecidableEq

/-- The components of the transaction assembled by one send, as far as the
verified properties observe them: the transparent prevouts spent, the
transparent outputs in vout order (fee change first, recipient and value),
the consumed TZE prevouts, the TZE outputs appended after all transparent
outputs, and the hash of the submitted transaction. -/
structure BuiltTx where
  transparentInputs : List (Nat × Nat)
  transparentOutputs : List (TransparentAddress × Nat)
  tzeInputs : List (TzeOutPoint × TzeOut)
  tzeOutputs : List TzeOut
  hash : Nat
deriving DecidableEq

/-- Successful result of a send: the updated sender state, the returned
outpoint of the new TZE output, the returned `TzeOut`
(`tx.tze_bundle().unwrap().vout[0]`), and the built transaction. -/
structure SendOk where
  sender : TzeSender
  outpoint : TzeOutPoint
  tzeOut : TzeOut
  tx : BuiltTx
deriving DecidableEq

/-- Result of a send.  The error case keeps the sender state as it stands
at the point of failure: Rust reverts nothing on an early `return Err`
(and a panic aborts the process with the state as recorded here). -/
inductive SendResult where
  | ok (r : SendOk)
  | err (s : TzeSender) (e : SendErr)
deriving DecidableEq

/-- Environment deciding the outcome of every external call a send makes:
the value of vout 0 of the recorded fee transaction
(`spendable_tx`), success of each builder step (the extension builder and
the transparent builder are external crates returning `Result`), success
of `build_zfuture` and of `sendrawtransaction`, and the hash assigned to
the submitted transaction. -/
structure BuildEnv where
  feeCoinValue : Nat
  getTxOk : Bool
  feeInputOk : Bool
  createOutOk : Bool
  depositOutOk : Bool
  stfOutOk : Bool
  createInOk : Bool
  stfInOk : Bool
  feeOutputOk : Bool
  depositInOk : Nat → Bool
  withdrawalOutOk : Nat → Bool
  buildOk : Bool
  sendOk : Bool
  newTxHash : Nat

/-- Result of one of the two mutation loops inside `progress_tze_stf`:
either the final `deposited` value, or the `deposited` value standing at
the moment the loop failed. -/
inductive LoopRes where
  | ok (deposited : Nat)
  | fail (deposited : Nat) (e : SendErr)
deriving DecidableEq

/-- The deposit loop of `progress_tze_stf`: for each deposit outpoint,
`self.deposited = (self.deposited + outpoint.1.value).unwrap()` (panic on
overflow, with `deposited` unchanged since the assignment never happens),
then `builder.add_deposit_input(outpoint)?` (on error the already-added
value stays in `deposited`). -/
def depositLoop (env : BuildEnv) (dep : Nat) (i : Nat) :
    List (TzeOutPoint × TzeOut) → LoopRes
  | [] => .ok dep
  | d :: rest =>
    match zatAdd dep d.2.value with
    | none => .fail dep .panic
    | some dep1 =>
      if env.depositInOk i then depositLoop env dep1 (i + 1) rest
      else .fail dep1 .buildErr

/-- The withdrawal loop of `progress_tze_stf`: for each processed
withdrawal, `add_transparent_output(PublicKeyHash(w.pubkey_hash),
w.amount)?` first, then `self.deposited = (self.deposited -
w.amount).unwrap()` (panic on underflow, `deposited` unchanged). -/
def withdrawalLoop (env : BuildEnv) (dep : Nat) (i : Nat) :
    List ProcessedWithdrawal → LoopRes
  | [] => .ok dep
  | w :: rest =>
    if env.withdrawalOutOk i then
      match zatSub dep w.amount with
      | none => .fail dep .panic
      | some dep1 => withdrawalLoop env dep1 (i + 1) rest
    else .fail dep .buildErr

/-- `TzeSender::send_tze_create`, step for step: fee input, the two
checked subtractions (`unwrap` panics), `add_create_output?`,
`assert_eq!(deposited, 0)`, the `deposited = LOCK_IN_VALUE` assignment,
fee-change output, `finish_tx` (build failure is an `unwrap` panic),
submission (`unwrap` panic), then the outpoint at vout index 1 and the
`fee_txid` rotation. -/
def send_tze_create (env : BuildEnv) (s : TzeSender) (fee : Nat) : SendResult :=
  if env.getTxOk then
    if env.feeInputOk then
      match zatSub env.feeCoinValue fee with
      | none => .err s .panic
      | some v1 =>
        match zatSub v1 LOCK_IN_VALUE with
        | none => .err s .panic
        | some value =>
          if env.createOutOk then
            if s.deposited = 0 then
              let s1 : TzeSender := { s with deposited := LOCK_IN_VALUE }
              if env.feeOutputOk then
                if env.buildOk then
                  if env.sendOk then
                    let hash := env.newTxHash
                    let createOut : TzeOut :=
                      { value := LOCK_IN_VALUE,
                        precondition :=
                          { extensionId := EXTENSION_ETH_BRIDGE,
                            mode := MODE_CREATE, payload := [] } }
                    .ok { sender := { s1 with feeTxid := hash },
                          outpoint := { txid := hash, n := 1 },
                          tzeOut := createOut,
                          tx := { transparentInputs := [(s.feeTxid, 0)],
                                  transparentOutputs := [(s.selfAddr, value)],
                                  tzeInputs := [],
                                  tzeOutputs := [createOut],
                                  hash := hash } }
                  else .err s1 .panic
                else .err s1 .panic
              else .err s1 .buildErr
            else .err s .panic
          else .err s .buildErr
    else .err s .buildErr
  else .err s .buildErr

/-- `TzeSender::send_tze_deposit`: fee input, `add_deposit_output?`, the
two checked subtractions, fee-change output, build, submit; `deposited`
is never touched. -/
def send_tze_deposit (env : BuildEnv) (s : TzeSender)
    (toEthAddr : Nat) (amount : Nat) (fee : Nat) : SendResult :=
  if env.getTxOk then
    if env.feeInputOk then
      if env.depositOutOk then
        match zatSub env.feeCoinValue fee with
        | none => .err s .panic
        | some v1 =>
          match zatSub v1 amount with
          | none => .err s .panic
          | some value =>
            if env.feeOutputOk then
              if env.buildOk then
                if env.sendOk then
                  let hash := env.newTxHash
                  let depOut : TzeOut :=
                    { value := amount,
                      precondition :=
                        { extensionId := EXTENSION_ETH_BRIDGE,
                          mode := MODE_DEPOSIT, payload := [toEthAddr] } }
                  .ok { sender := { s with feeTxid := hash },
                        outpoint := { txid := hash, n := 1 },
                        tzeOut := depOut,
                        tx := { transparentInputs := [(s.feeTxid, 0)],
                                transparentOutputs := [(s.selfAddr, value)],
                                tzeInputs := [],
                                tzeOutputs := [depOut],
                                hash := hash } }
                else .err s .panic
              else .err s .panic
            else .err s .buildErr
      else .err s .buildErr
    else .err s .buildErr
  else .err s .buildErr

/-- `TzeSender::initialize_tze_stf`: fee input, `add_create_input?` of the
previous CREATE outpoint, `add_stf_output(LOCK_IN_VALUE)?`, one checked
subtraction, fee-change output, build, submit; `deposited` untouched. -/
def initialize_tze_stf (env : BuildEnv) (s : TzeSender) (fee : Nat)
    (prevout : TzeOutPoint × TzeOut) : SendResult :=
  if env.getTxOk then
    if env.feeInputOk then
      if env.createInOk then
        if env.stfOutOk then
          match zatSub env.feeCoinValue fee with
          | none => .err s .panic
          | some value =>
            if env.feeOutputOk then
              if env.buildOk then
                if env.sendOk then
                  let hash := env.newTxHash
                  let stfOut : TzeOut :=
                    { value := LOCK_IN_VALUE,
                      precondition :=
                        { extensionId := EXTENSION_ETH_BRIDGE,
                          mode := MODE_STF, payload := [] } }
                  .ok { sender := { s with feeTxid := hash },
                        outpoint := { txid := hash, n := 1 },
                        tzeOut := stfOut,
                        tx := { transparentInputs := [(s.feeTxid, 0)],
                                transparentOutputs := [(s.selfAddr, value)],
                                tzeInputs := [prevout],
                                tzeOutputs := [stfOut],
                                hash := hash } }
                else .err s .panic
              else .err s .panic
            else .err s .buildErr
        else .err s .buildErr
      else .err s .buildErr
    else .err s .buildErr
  else .err s .buildErr

/-- `TzeSender::progress_tze_stf`, step for step in source order: fee
input, `add_stf_input?` of the previous STF outpoint (the processed
deposit and withdrawal lists go into its witness payload), the deposit
loop mutating `deposited`, the checked subtraction for the fee change,
fee-change output, the withdrawal loop (transparent payout then
`deposited` decrement), `add_stf_output(self.deposited)?`, build, submit;
the returned outpoint has vout index `1 + processed_withdrawals.len()`
and `fee_txid` rotates to the new hash. -/
def progress_tze_stf (env : BuildEnv) (s : TzeSender) (fee : Nat)
    (prevout : TzeOutPoint × TzeOut)
    (depositOutpoints : List (TzeOutPoint × TzeOut))
    (processedDeposits : List ProcessedDeposit)
    (processedWithdrawals : List ProcessedWithdrawal) : SendResult :=
  if env.getTxOk then
    if env.feeInputOk then
      if env.stfInOk then
        match depositLoop env s.deposited 0 depositOutpoints with
        | .fail dep e => .err { s with deposited := dep } e
        | .ok dep1 =>
          match zatSub env.feeCoinValue fee with
          | none => .err { s with deposited := dep1 } .panic
          | some value =>
            if env.feeOutputOk then
              match withdrawalLoop env dep1 0 processedWithdrawals with
              | .fail dep e => .err { s with deposited := dep } e
              | .ok dep2 =>
                if env.stfOutOk then
                  if env.buildOk then
                    if env.sendOk then
                      let hash := env.newTxHash
                      let stfOut : TzeOut :=
                        { value := dep2,
                          precondition :=
                            { extensionId := EXTENSION_ETH_BRIDGE,
                              mode := MODE_STF, payload := [] } }
                      .ok { sender := { s with deposited := dep2, feeTxid := hash },
                            outpoint :=
                              { txid := hash, n := 1 + processedWithdrawals.length },
                            tzeOut := stfOut,
                            tx := { transparentInputs := [(s.feeTxid, 0)],
                                    transparentOutputs :=
                                      (s.selfAddr, value) ::
                                        processedWithdrawals.map
                                          (fun w =>
                                            (TransparentAddress.publicKeyHash w.pubkeyHash,
                                             w.amount)),
                                    tzeInputs := prevout :: depositOutpoints,
                                    tzeOutputs := [stfOut],
                                    hash := hash } }
                    else .err { s with deposited := dep2 } .panic
                  else .err { s with deposited := dep2 } .panic
                else .err { s with deposited := dep2 } .buildErr
            else .err { s with deposited := dep1 } .buildErr
      else .err s .buildErr
    else .err s .buildErr
  else .err s .buildErr

/-- Whether a send succeeded. -/
def SendResult.isOk : SendResult → Bool
  | .ok _ => true
  | .err _ _ => false

/-- Sender state after a send: the updated state on success, the state at
the point of failure otherwise. -/
def SendResult.senderOf : SendResult → TzeSender
  | .ok r => r.sender
  | .err s _ => s

/-- The outpoint returned by a successful send (junk on failure). -/
def SendResult.outpointOf : SendResult → TzeOutPoint
  | .ok r => r.outpoint
  | .err _ _ => { txid := 0, n := 0 }

/-- The `TzeOut` returned by a successful send (junk on failure). -/
def SendResult.tzeOutOf : SendResult → TzeOut
  | .ok r => r.tzeOut
  | .err _ _ =>
    { value := 0, precondition := { extensionId := 0, mode := 0, payload := [] } }

/-- The built transaction of a successful send (empty on failure). -/
def SendResult.txOf : SendResult → BuiltTx
  | .ok r => r.tx
  | .err _ _ =>
    { transparentInputs := [], transparentOutputs := [],
      tzeInputs := [], tzeOutputs := [], hash := 0 }

/-- The error kind of a failed send. -/
def SendResult.errKind : SendResult → Option SendErr
  | .ok _ => none
  | .err _ e => some e

/-- Total value of a list of deposit TZE prevouts. -/
def sumDepositValues (l : List (TzeOutPoint × TzeOut)) : Nat :=
  (l.map (fun d => d.2.value)).sum

/-- Total amount of a list of processed withdrawals. -/
def sumWithdrawals (l : List ProcessedWithdrawal) : Nat :=
  (l.map (fun w => w.amount)).sum

/-- The fee-change value of a built transaction: the value of its first
transparent output. -/
def BuiltTx.feeChangeValue (tx : BuiltTx) : Nat :=
  match tx.transparentOutputs with
  | [] => 0
  | o :: _ => o.2

/-- Total value of the non-fee transparent outputs (everything after the
fee change). -/
def BuiltTx.nonFeeTransparentSum (tx : BuiltTx) : Nat :=
  ((tx.transparentOutputs.drop 1).map Prod.snd).sum

/-- Total value of the TZE outputs. -/
def BuiltTx.tzeOutputsSum (tx : BuiltTx) : Nat :=
  (tx.tzeOutputs.map TzeOut.value).sum

/-- Total value of the consumed TZE prevouts. -/
def BuiltTx.tzeInputsSum (tx : BuiltTx) : Nat :=
  (tx.tzeInputs.map (fun p => p.2.value)).sum

/-- `MIN_TRANSPARENT_COINBASE_MATURITY` from `zebra_chain::transparent`:
the coinbase maturity depth (100 blocks). -/
def MIN_TRANSPARENT_COINBASE_MATURITY : Nat := 100

/-- Error outcome of a Chain-Z RPC helper: `panic` models the explicit
`panic!` / out-of-bounds indexing, `rpcFailure` models a surfaced RPC or
format error (including the `bail!("expected raw block")` branch). -/
inductive RpcErr where
  | panic
  | rpcFailure
deriving DecidableEq

/-- Chain-Z node view used by `spendable_coinbase_txid` and
`TzeSender::new`: the current block count, the height-to-hash map and the
hash-to-block map (a block is its list of transaction ids, coinbase
first); `none` models an RPC failure or a non-raw response. -/
structure ZebraEnv where
  blockCount : Nat
  getBlockHash : Nat → Option Nat
  getBlock : Nat → Option (List Nat)

/-- `spendable_coinbase_txid` from `helpers.rs`: panic when the target
height is below the maturity depth, otherwise fetch the block hash at
`target_height - MIN_TRANSPARENT_COINBASE_MATURITY`, fetch that block and
return the hash of `block.transactions[0]` (indexing an empty transaction
list would panic). -/
def spendable_coinbase_txid (env : ZebraEnv) (targetHeight : Nat) :
    Except RpcErr Nat :=
  if targetHeight < MIN_TRANSPARENT_COINBASE_MATURITY then .error .panic
  else
    match env.getBlockHash (targetHeight - MIN_TRANSPARENT_COINBASE_MATURITY) with
    | none => .error .rpcFailure
    | some h =>
      match env.getBlock h with
      | none => .error .rpcFailure
      | some txs =>
        match txs with
        | [] => .error .panic
        | cb :: _ => .ok cb

/-- The `fee_txid` computed by `TzeSender::new`: the spendable coinbase
txid for target height `get_block_count() + 1`. -/
def initialFeeTxid (env : ZebraEnv) : Except RpcErr Nat :=
  spendable_coinbase_txid env (env.blockCount + 1)

/-- `zebra_chain::transparent::ExtendedScript`: either an extension
lock-script carrying a TZE precondition, or an ordinary script. -/
inductive ExtendedScript where
  | extension (tze : TzePrecondition)
  | script (raw : List Nat)
deriving DecidableEq

/-- A transparent output of a Chain-Z transaction as the watcher sees it:
its lock script and its (non-negative) value. -/
structure ZOutput where
  lockScript : ExtendedScript
  value : Nat
deriving DecidableEq

/-- A Chain-Z transaction: its hash and its outputs in vout order. -/
structure ZTransaction where
  hash : Nat
  outputs : List ZOutput
deriving DecidableEq

/-- A Chain-Z block: its transactions in order. -/
structure ZBlock where
  transactions : List ZTransaction
deriving DecidableEq

/-- `types.rs` `ZecToEthTransfer`. -/
structure ZecToEthTransfer where
  amount : Nat
  ethAddress : Nat
deriving DecidableEq

/-- `eth_bridge::Precondition` as the zcash watcher consumes it: a decoded
DEPOSIT payload carries the recipient and the deployment identifier; the
data of CREATE and STF payloads is never read by the watcher. -/
inductive EthBridgePrecondition where
  | deposit (toAddr : Nat) (stfId : Nat)
  | create
  | stf
deriving DecidableEq

/-- One step of the output loop in `extract_zec_to_eth_transfers`:
skip non-extension lock scripts, skip extension ids other than
`EXTENSION_ETH_BRIDGE`, try `Precondition::from_payload(mode, payload)`
(the `fromPayload` parameter models this external decoder, `none` being a
decode failure) and on a DEPOSIT push the transfer and the
`(outpoint, TzeOut)` pair onto the two accumulators. -/
def depositStep (fromPayload : Nat → List Nat → Option EthBridgePrecondition)
    (txHash : Nat)
    (acc : List ZecToEthTransfer × List (TzeOutPoint × TzeOut))
    (p : Nat × ZOutput) :
    List ZecToEthTransfer × List (TzeOutPoint × TzeOut) :=
  match p.2.lockScript with
  | .script _ => acc
  | .extension tze =>
    if tze.extensionId = EXTENSION_ETH_BRIDGE then
      match fromPayload tze.mode tze.payload with
      | some (.deposit toAddr _) =>
        (acc.1 ++ [{ amount := p.2.value, ethAddress := toAddr }],
         acc.2 ++ [({ txid := txHash, n := p.1 },
                    { value := p.2.value, precondition := tze })])
      | some .create => acc
      | some .stf => acc
      | none => acc
    else acc

/-- `ZcashWatcher::extract_zec_to_eth_transfers`: iterate every block,
every transaction, every enumerated output, accumulating transfers and
outpoints in order. -/
def extract_zec_to_eth_transfers
    (fromPayload : Nat → List Nat → Option EthBridgePrecondition)
    (blocks : List ZBlock) :
    List ZecToEthTransfer × List (TzeOutPoint × TzeOut) :=
  blocks.foldl
    (fun acc block =>
      block.transactions.foldl
        (fun acc2 tx => tx.outputs.enum.foldl (depositStep fromPayload tx.hash) acc2)
        acc)
    ([], [])

/-- Declarative reading of the spec for one output: a block output
contributes exactly when its lock script is a TZE with the bridge
extension id whose payload decodes as a DEPOSIT; the contributed transfer
carries the payload's recipient and the output's value, and the outpoint
pairs the transaction hash with the output's vout index. -/
def depositOfOutput (fromPayload : Nat → List Nat → Option EthBridgePrecondition)
    (txHash n : Nat) (o : ZOutput) :
    Option (ZecToEthTransfer × (TzeOutPoint × TzeOut)) :=
  match o.lockScript with
  | .script _ => none
  | .extension tze =>
    if tze.extensionId = EXTENSION_ETH_BRIDGE then
      match fromPayload tze.mode tze.payload with
      | some (.deposit toAddr _) =>
        some ({ amount := o.value, ethAddress := toAddr },
              ({ txid := txHash, n := n }, { value := o.value, precondition := tze }))
      | _ => none
    else none

/-- The deposits of a block list in block-then-transaction-then-output
order, read off the spec sentence. -/
def depositsSpec (fromPayload : Nat → List Nat → Option EthBridgePrecondition)
    (blocks : List ZBlock) :
    List (ZecToEthTransfer × (TzeOutPoint × TzeOut)) :=
  blocks.flatMap fun b =>
    b.transactions.flatMap fun t =>
      t.outputs.enum.filterMap fun p => depositOfOutput fromPayload t.hash p.1 p.2

/-- `zebra_rpc` `Utxo` as `get_address_utxos_with_mempool` handles it. -/
structure Utxo where
  address : TransparentAddress
  txid : Nat
  outputIndex : Nat
  script : List Nat
  value : Nat
  height : Nat
deriving DecidableEq

/-- A transparent input of a parsed mempool transaction: its prevout. -/
structure TInput where
  prevTxid : Nat
  prevVout : Nat
deriving DecidableEq

/-- A transparent output of a parsed mempool transaction:
`recipient_address()` (`none` for non-standard scripts), the script bytes
and the value. -/
structure TOutput where
  recipient : Option TransparentAddress
  script : List Nat
  value : Nat
deriving DecidableEq

/-- The transparent bundle of a parsed mempool transaction. -/
structure ParsedTx where
  vin : List TInput
  vout : List TOutput
deriving DecidableEq

/-- Node view used by `get_address_utxos_with_mempool`: the confirmed
UTXOs returned by `getaddressutxos`, the mempool txid list returned by
`getrawmempool`, and the per-txid fetch+parse outcome (`none` models a
fetch failure, an unexpected raw response, or a parse failure — all of
which the code logs and skips). -/
structure MempoolEnv where
  confirmedUtxos : List Utxo
  mempoolTxIds : List Nat
  fetchTx : Nat → Option ParsedTx

/-- The spent-outpoint keys one parsed mempool transaction contributes:
for each of its inputs, the `(txid, vout)` of every confirmed UTXO that
the input's prevout matches. -/
def spentKeysOfTx (confirmed : List Utxo) (tx : ParsedTx) : List (Nat × Nat) :=
  tx.vin.flatMap fun i =>
    (confirmed.filter fun u =>
        u.txid == i.prevTxid && u.outputIndex == i.prevVout).map
      fun u => (u.txid, u.outputIndex)

/-- The UTXO synthesized from one enumerated output of a mempool
transaction when it pays the target address: height 0 marks it as
unconfirmed. -/
def mempoolUtxoOfOutput (target : TransparentAddress) (tid idx : Nat)
    (o : TOutput) : Option Utxo :=
  match o.recipient with
  | none => none
  | some a =>
    if a = target then
      some { address := target, txid := tid, outputIndex := idx,
             script := o.script, value := o.value, height := 0 }
    else none

/-- All UTXOs synthesized from one parsed mempool transaction. -/
def mempoolUtxosOfTx (target : TransparentAddress) (tid : Nat)
    (tx : ParsedTx) : List Utxo :=
  tx.vout.enum.filterMap fun p => mempoolUtxoOfOutput target tid p.1 p.2

/-- The mempool loop of `get_address_utxos_with_mempool`: each fetched and
parsed mempool transaction appends its spent-outpoint keys and its
synthesized UTXOs to the two accumulators; unparsable transactions are
skipped. -/
def collectMempool (env : MempoolEnv) (target : TransparentAddress) :
    List (Nat × Nat) × List Utxo :=
  env.mempoolTxIds.foldl
    (fun acc tid =>
      match env.fetchTx tid with
      | none => acc
      | some tx =>
        (acc.1 ++ spentKeysOfTx env.confirmedUtxos tx,
         acc.2 ++ mempoolUtxosOfTx target tid tx))
    ([], [])

/-- `RpcClient::get_address_utxos_with_mempool` for `RpcRequestClient`:
run the mempool loop, drop every confirmed UTXO whose `(txid, vout)` key
was recorded as spent, and append the synthesized mempool UTXOs. -/
def get_address_utxos_with_mempool (env : MempoolEnv)
    (target : TransparentAddress) : List Utxo :=
  let res := collectMempool env target
  (env.confirmedUtxos.filter fun u =>
      !(res.1.contains (u.txid, u.outputIndex))) ++ res.2

/-- Declarative spent predicate from the spec sentence: a UTXO is spent
when some successfully parsed mempool transaction has an input whose
prevout is the UTXO's `(txid, vout)`. -/
def spentInMempool (env : MempoolEnv) (u : Utxo) : Bool :=
  env.mempoolTxIds.any fun tid =>
    match env.fetchTx tid with
    | none => false
    | some tx =>
      tx.vin.any fun i => u.txid == i.prevTxid && u.outputIndex == i.prevVout

/-- Declarative list of synthesized mempool UTXOs, in mempool-then-output
order. -/
def mempoolUtxosSpec (env : MempoolEnv) (target : TransparentAddress) :
    List Utxo :=
  env.mempoolTxIds.flatMap fun tid =>
    match env.fetchTx tid with
    | none => []
    | some tx => mempoolUtxosOfTx target tid tx

/-- `types.rs` `EthToZecTransfer`. -/
structure EthToZecTransfer where
  amount : Nat
  pubkeyHash : Nat
deriving DecidableEq

/-- The decoded content of a `WithdrawalRequested` event. -/
structure WithdrawalEvent where
  pubkeyHash : Nat
  amount : Nat
deriving DecidableEq

/-- A Chain-E log as the eth watcher consumes it: emitting address,
topic 0, block number, and the outcome of
`WithdrawalRequested::decode_log` on it (`none` models a decode error).
The event amount is a `U256`, hence an unbounded `Nat` here. -/
structure EthLog where
  address : Nat
  topic0 : Nat
  blockNumber : Nat
  decoded : Option WithdrawalEvent
deriving DecidableEq

/-- `WithdrawalRequested::SIGNATURE_HASH` (Keccak-256 of the event
signature; opaque but fixed constant). -/
def WITHDRAWAL_REQUESTED_SIGNATURE_HASH : Nat := 7

/-- Chain-E node view for the eth watcher: the bridge contract address
and the full log store the node filters over. -/
structure EthEnv where
  bridgeAddress : Nat
  logs : List EthLog

/-- A Chain-E block as the watcher reads it: only its number is used. -/
structure EthBlock where
  number : Nat
deriving DecidableEq

/-- Error outcome of the eth watcher: `panic` models an `unwrap` /
`expect` firing, `decodeErr` a `?`-propagated `decode_log` error. -/
inductive EthWatchErr where
  | panic
  | decodeErr
deriving DecidableEq

/-- The provider's `get_logs` on the filter the watcher builds: logs of
the bridge contract with the `WithdrawalRequested` topic whose block
number lies in `[fromBlock, toBlock]`, in log order (standard EVM-node
filter semantics over the environment's log store). -/
def getLogs (env : EthEnv) (fromBlock toBlock : Nat) : List EthLog :=
  env.logs.filter fun l =>
    l.address == env.bridgeAddress &&
    l.topic0 == WITHDRAWAL_REQUESTED_SIGNATURE_HASH &&
    decide (fromBlock ≤ l.blockNumber) && decide (l.blockNumber ≤ toBlock)

/-- The log loop of `extract_eth_to_zec_transfers`: decode each log
(`?` aborts the call on a decode error), check the amount fits in 64 bits
(`expect` panics otherwise), and push the transfer. -/
def decodeWithdrawalLogs : List EthLog → Except EthWatchErr (List EthToZecTransfer)
  | [] => .ok []
  | l :: rest =>
    match l.decoded with
    | none => .error .decodeErr
    | some e =>
      if e.amount < 2 ^ 64 then
        match decodeWithdrawalLogs rest with
        | .ok ts => .ok ({ amount := e.amount, pubkeyHash := e.pubkeyHash } :: ts)
        | .error er => .error er
      else .error .panic

/-- `EthWatcher::extract_eth_to_zec_transfers`: unwrap the first and last
block of the slice (panic when empty), fetch the filtered logs over the
block-number range, and run the log loop. -/
def extract_eth_to_zec_transfers (env : EthEnv) (blocks : List EthBlock) :
    Except EthWatchErr (List EthToZecTransfer) :=
  match blocks.head?, blocks.getLast? with
  | some fb, some lb => decodeWithdrawalLogs (getLogs env fb.number lb.number)
  | _, _ => .error .panic

/-- The transfer a decodable log contributes (junk on undecodable logs;
only used under the hypothesis that every log decodes). -/
def transferOfLog (l : EthLog) : EthToZecTransfer :=
  match l.decoded with
  | some e => { amount := e.amount, pubkeyHash := e.pubkeyHash }
  | none => { amount := 0, pubkeyHash := 0 }

/-! ### Helper lemmas -/

theorem zatAdd_some {a b c : Nat} (h : zatAdd a b = some c) :
    c = a + b ∧ a + b ≤ MAX_MONEY := by
  unfold zatAdd at h
  split at h
  · exact ⟨(Option.some.injEq _ _ ▸ h).symm, by assumption⟩
  · exact absurd h (by simp)

theorem zatSub_some {a b c : Nat} (h : zatSub a b = some c) :
    b ≤ a ∧ c = a - b := by
  unfold zatSub at h
  split at h
  · exact ⟨by assumption, (Option.some.injEq _ _ ▸ h).symm⟩
  · exact absurd h (by simp)

theorem zatSub_lt {a b : Nat} (h : a < b) : zatSub a b = none := by
  unfold zatSub
  split
  · omega
  · rfl

theorem depositLoop_ok_sum (env : BuildEnv) :
    ∀ (l : List (TzeOutPoint × TzeOut)) (dep i d1 : Nat),
      depositLoop env dep i l = .ok d1 → d1 = dep + sumDepositValues l := by
  intro l
  induction l with
  | nil =>
    intro dep i d1 h
    simp only [depositLoop, LoopRes.ok.injEq] at h
    simp [sumDepositValues, h]
  | cons d rest ih =>
    intro dep i d1 h
    simp only [depositLoop] at h
    cases hz : zatAdd dep d.2.value with
    | none => rw [hz] at h; exact absurd h (by simp)
    | some dep' =>
      rw [hz] at h
      simp only at h
      by_cases hd : env.depositInOk i
      · rw [if_pos hd] at h
        have hrec := ih dep' (i + 1) d1 h
        have hz' := zatAdd_some hz
        simp [sumDepositValues] at hrec ⊢
        omega
      · rw [if_neg hd] at h
        exact absurd h (by simp)

theorem withdrawalLoop_ok_sum (env : BuildEnv) :
    ∀ (l : List ProcessedWithdrawal) (dep i d1 : Nat),
      withdrawalLoop env dep i l = .ok d1 →
        sumWithdrawals l ≤ dep ∧ d1 = dep - sumWithdrawals l := by
  intro l
  induction l with
  | nil =>
    intro dep i d1 h
    simp only [withdrawalLoop, LoopRes.ok.injEq] at h
    simp [sumWithdrawals, h]
  | cons w rest ih =>
    intro dep i d1 h
    simp only [withdrawalLoop] at h
    by_cases hw : env.withdrawalOutOk i
    · rw [if_pos hw] at h
      cases hz : zatSub dep w.amount with
      | none => rw [hz] at h; exact absurd h (by simp)
      | some dep' =>
        rw [hz] at h
        simp only at h
        have hrec := ih dep' (i + 1) d1 h
        have hz' := zatSub_some hz
        simp [sumWithdrawals] at hrec ⊢
        omega
    · rw [if_neg hw] at h
      exact absurd h (by simp)

/-! ### C1 — value conservation of `progress_tze_stf` -/

/-- C1: for every call to `progress_tze_stf` with current deposited value
`d`, deposit outpoints `D` and processed withdrawals `W` that succeeds
(so no checked-arithmetic failure occurred), the new STF TXO-ext output
added to the transaction has value `d + Σ D.value − Σ W.amount`, and the
sender's `deposited` field equals that same value after the call. -/
theorem progress_tze_stf_conserves_value (env : BuildEnv) (s : TzeSender)
    (fee : Nat) (prevout : TzeOutPoint × TzeOut)
    (deps : List (TzeOutPoint × TzeOut)) (pd : List ProcessedDeposit)
    (pw : List ProcessedWithdrawal)
    (h : (progress_tze_stf env s fee prevout deps pd pw).isOk = true) :
    sumWithdrawals pw ≤ s.deposited + sumDepositValues deps ∧
    (progress_tze_stf env s fee prevout deps pd pw).senderOf.deposited
      = s.deposited + sumDepositValues deps - sumWithdrawals pw ∧
    ((progress_tze_stf env s fee prevout deps pd pw).txOf.tzeOutputs.map TzeOut.value)
      = [(progress_tze_stf env s fee prevout deps pd pw).senderOf.deposited] ∧
    (progress_tze_stf env s fee prevout deps pd pw).tzeOutOf.value
      = (progress_tze_stf env s fee prevout deps pd pw).senderOf.deposited := by
  cases hres : progress_tze_stf env s fee prevout deps pd pw with
  | err s' e => rw [hres] at h; simp [SendResult.isOk] at h
  | ok r =>
    unfold progress_tze_stf at hres
    split at hres
    case isFalse => exact absurd hres (by simp)
    case isTrue =>
      split at hres
      case isFalse => exact absurd hres (by simp)
      case isTrue =>
        split at hres
        case isFalse => exact absurd hres (by simp)
        case isTrue =>
          split at hres
          case h_1 dep e hdl => exact absurd hres (by simp)
          case h_2 dep1 hdl =>
            split at hres
            case h_1 => exact absurd hres (by simp)
            case h_2 value hsub =>
              split at hres
              case isFalse => exact absurd hres (by simp)
              case isTrue =>
                split at hres
                case h_1 => exact absurd hres (by simp)
                case h_2 dep2 hwl =>
                  split at hres
                  case isFalse => exact absurd hres (by simp)
                  case isTrue =>
                    split at hres
                    case isFalse => exact absurd hres (by simp)
                    case isTrue =>
                      split at hres
                      case isFalse => exact absurd hres (by simp)
                      case isTrue =>
                        have hd1 := depositLoop_ok_sum env deps s.deposited 0 dep1 hdl
                        obtain ⟨hw1, hw2⟩ := withdrawalLoop_ok_sum env pw dep1 0 dep2 hwl
                        cases hres
                        simp only [SendResult.senderOf, SendResult.txOf,
                          SendResult.tzeOutOf]
                        exact ⟨by omega, by omega, by simp, by simp⟩

/-! ### Concrete fixtures for witness evaluations -/

/-- A build environment in which every external call succeeds, the fee
coin holds 1,000,000 zatoshis and the submitted transaction gets hash 42. -/
def envW : BuildEnv :=
  { feeCoinValue := 1000000, getTxOk := true, feeInputOk := true,
    createOutOk := true, depositOutOk := true, stfOutOk := true,
    createInOk := true, stfInOk := true, feeOutputOk := true,
    depositInOk := fun _ => true, withdrawalOutOk := fun _ => true,
    buildOk := true, sendOk := true, newTxHash := 42 }

/-- A fresh sender (deposited = 0). -/
def senderW : TzeSender :=
  { feeTxid := 7, deposited := 0, stfIdentifier := 1, rootHash := 2,
    selfAddr := .publicKeyHash 3 }

/-- A sender mid-lifecycle, with `deposited = LOCK_IN_VALUE`. -/
def senderW1 : TzeSender := { senderW with deposited := 100000 }

/-- A concrete previous STF outpoint whose locked value is 100000. -/
def prevStfW : TzeOutPoint × TzeOut :=
  ({ txid := 5, n := 1 },
   { value := 100000,
     precondition := { extensionId := EXTENSION_ETH_BRIDGE, mode := MODE_STF, payload := [] } })

/-- A concrete deposit outpoint of value 90000. -/
def depositOutW : TzeOutPoint × TzeOut :=
  ({ txid := 6, n := 1 },
   { value := 90000,
     precondition := { extensionId := EXTENSION_ETH_BRIDGE, mode := MODE_DEPOSIT, payload := [] } })

/-- A concrete processed withdrawal of amount 30000. -/
def withdrawalW : ProcessedWithdrawal := { pubkeyHash := 9, amount := 30000 }

/-- Witness for C1: on a concrete call with `deposited = 100000`, one
deposit of 90000 and one withdrawal of 30000, the call succeeds and the
new STF value and the `deposited` field both equal 160000. -/
theorem progress_tze_stf_conserves_value_witness :
    sumWithdrawals [withdrawalW] ≤ senderW1.deposited + sumDepositValues [depositOutW] ∧
    (progress_tze_stf envW senderW1 50000 prevStfW [depositOutW] [] [withdrawalW]).senderOf.deposited
      = senderW1.deposited + sumDepositValues [depositOutW] - sumWithdrawals [withdrawalW] ∧
    ((progress_tze_stf envW senderW1 50000 prevStfW [depositOutW] [] [withdrawalW]).txOf.tzeOutputs.map TzeOut.value)
      = [(progress_tze_stf envW senderW1 50000 prevStfW [depositOutW] [] [withdrawalW]).senderOf.deposited] ∧
    (progress_tze_stf envW senderW1 50000 prevStfW [depositOutW] [] [withdrawalW]).tzeOutOf.value
      = (progress_tze_stf envW senderW1 50000 prevStfW [depositOutW] [] [withdrawalW]).senderOf.deposited :=
  progress_tze_stf_conserves_value envW senderW1 50000 prevStfW [depositOutW] [] [withdrawalW]
    (by decide)

/-! ### Characterization lemmas for the four send kinds -/

theorem send_tze_create_ok_spec (env : BuildEnv) (s : TzeSender) (fee : Nat)
    (r : SendOk) (hres : send_tze_create env s fee = .ok r) :
    ∃ v1 value,
      zatSub env.feeCoinValue fee = some v1 ∧
      zatSub v1 LOCK_IN_VALUE = some value ∧
      s.deposited = 0 ∧
      r = { sender := { s with deposited := LOCK_IN_VALUE, feeTxid := env.newTxHash },
            outpoint := { txid := env.newTxHash, n := 1 },
            tzeOut := { value := LOCK_IN_VALUE,
                        precondition := { extensionId := EXTENSION_ETH_BRIDGE,
                                          mode := MODE_CREATE, payload := [] } },
            tx := { transparentInputs := [(s.feeTxid, 0)],
                    transparentOutputs := [(s.selfAddr, value)],
                    tzeInputs := [],
                    tzeOutputs := [{ value := LOCK_IN_VALUE,
                                     precondition := { extensionId := EXTENSION_ETH_BRIDGE,
                                                       mode := MODE_CREATE, payload := [] } }],
                    hash := env.newTxHash } } := by
  unfold send_tze_create at hres
  split at hres
  case isFalse => exact absurd hres (by simp)
  case isTrue =>
    split at hres
    case isFalse => exact absurd hres (by simp)
    case isTrue =>
      split at hres
      case h_1 => exact absurd hres (by simp)
      case h_2 v1 hs1 =>
        split at hres
        case h_1 => exact absurd hres (by simp)
        case h_2 value hs2 =>
          split at hres
          case isFalse => exact absurd hres (by simp)
          case isTrue =>
            split at hres
            case isFalse => exact absurd hres (by simp)
            case isTrue hdep =>
              split at hres
              case isFalse => exact absurd hres (by simp)
              case isTrue =>
                split at hres
                case isFalse => exact absurd hres (by simp)
                case isTrue =>
                  split at hres
                  case isFalse => exact absurd hres (by simp)
                  case isTrue =>
                    cases hres
                    exact ⟨v1, value, hs1, hs2, hdep, rfl⟩

theorem send_tze_deposit_ok_spec (env : BuildEnv) (s : TzeSender)
    (toEthAddr amount fee : Nat) (r : SendOk)
    (hres : send_tze_deposit env s toEthAddr amount fee = .ok r) :
    ∃ v1 value,
      zatSub env.feeCoinValue fee = some v1 ∧
      zatSub v1 amount = some value ∧
      r = { sender := { s with feeTxid := env.newTxHash },
            outpoint := { txid := env.newTxHash, n := 1 },
            tzeOut := { value := amount,
                        precondition := { extensionId := EXTENSION_ETH_BRIDGE,
                                          mode := MODE_DEPOSIT, payload := [toEthAddr] } },
            tx := { transparentInputs := [(s.feeTxid, 0)],
                    transparentOutputs := [(s.selfAddr, value)],
                    tzeInputs := [],
                    tzeOutputs := [{ value := amount,
                                     precondition := { extensionId := EXTENSION_ETH_BRIDGE,
                                                       mode := MODE_DEPOSIT, payload := [toEthAddr] } }],
                    hash := env.newTxHash } } := by
  unfold send_tze_deposit at hres
  split at hres
  case isFalse => exact absurd hres (by simp)
  case isTrue =>
    split at hres
    case isFalse => exact absurd hres (by simp)
    case isTrue =>
      split at hres
      case isFalse => exact absurd hres (by simp)
      case isTrue =>
        split at hres
        case h_1 => exact absurd hres (by simp)
        case h_2 v1 hs1 =>
          split at hres
          case h_1 => exact absurd hres (by simp)
          case h_2 value hs2 =>
            split at hres
            case isFalse => exact absurd hres (by simp)
            case isTrue =>
              split at hres
              case isFalse => exact absurd hres (by simp)
              case isTrue =>
                split at hres
                case isFalse => exact absurd hres (by simp)
                case isTrue =>
                  cases hres
                  exact ⟨v1, value, hs1, hs2, rfl⟩

theorem initialize_tze_stf_ok_spec (env : BuildEnv) (s : TzeSender) (fee : Nat)
    (prevout : TzeOutPoint × TzeOut) (r : SendOk)
    (hres : initialize_tze_stf env s fee prevout = .ok r) :
    ∃ value,
      zatSub env.feeCoinValue fee = some value ∧
      r = { sender := { s with feeTxid := env.newTxHash },
            outpoint := { txid := env.newTxHash, n := 1 },
            tzeOut := { value := LOCK_IN_VALUE,
                        precondition := { extensionId := EXTENSION_ETH_BRIDGE,
                                          mode := MODE_STF, payload := [] } },
            tx := { transparentInputs := [(s.feeTxid, 0)],
                    transparentOutputs := [(s.selfAddr, value)],
                    tzeInputs := [prevout],
                    tzeOutputs := [{ value := LOCK_IN_VALUE,
                                     precondition := { extensionId := EXTENSION_ETH_BRIDGE,
                                                       mode := MODE_STF, payload := [] } }],
                    hash := env.newTxHash } } := by
  unfold initialize_tze_stf at hres
  split at hres
  case isFalse => exact absurd hres (by simp)
  case isTrue =>
    split at hres
    case isFalse => exact absurd hres (by simp)
    case isTrue =>
      split at hres
      case isFalse => exact absurd hres (by simp)
      case isTrue =>
        split at hres
        case isFalse => exact absurd hres (by simp)
        case isTrue =>
          split at hres
          case h_1 => exact absurd hres (by simp)
          case h_2 value hs1 =>
            split at hres
            case isFalse => exact absurd hres (by simp)
            case isTrue =>
              split at hres
              case isFalse => exact absurd hres (by simp)
              case isTrue =>
                split at hres
                case isFalse => exact absurd hres (by simp)
                case isTrue =>
                  cases hres
                  exact ⟨value, hs1, rfl⟩

theorem progress_tze_stf_ok_spec (env : BuildEnv) (s : TzeSender) (fee : Nat)
    (prevout : TzeOutPoint × TzeOut) (deps : List (TzeOutPoint × TzeOut))
    (pd : List ProcessedDeposit) (pw : List ProcessedWithdrawal) (r : SendOk)
    (hres : progress_tze_stf env s fee prevout deps pd pw = .ok r) :
    ∃ dep1 dep2 value,
      depositLoop env s.deposited 0 deps = .ok dep1 ∧
      withdrawalLoop env dep1 0 pw = .ok dep2 ∧
      zatSub env.feeCoinValue fee = some value ∧
      r = { sender := { s with deposited := dep2, feeTxid := env.newTxHash },
            outpoint := { txid := env.newTxHash, n := 1 + pw.length },
            tzeOut := { value := dep2,
                        precondition := { extensionId := EXTENSION_ETH_BRIDGE,
                                          mode := MODE_STF, payload := [] } },
            tx := { transparentInputs := [(s.feeTxid, 0)],
                    transparentOutputs :=
                      (s.selfAddr, value) ::
                        pw.map (fun w => (TransparentAddress.publicKeyHash w.pubkeyHash, w.amount)),
                    tzeInputs := prevout :: deps,
                    tzeOutputs := [{ value := dep2,
                                     precondition := { extensionId := EXTENSION_ETH_BRIDGE,
                                                       mode := MODE_STF, payload := [] } }],
                    hash := env.newTxHash } } := by
  unfold progress_tze_stf at hres
  split at hres
  case isFalse => exact absurd hres (by simp)
  case isTrue =>
    split at hres
    case isFalse => exact absurd hres (by simp)
    case isTrue =>
      split at hres
      case isFalse => exact absurd hres (by simp)
      case isTrue =>
        split at hres
        case h_1 => exact absurd hres (by simp)
        case h_2 dep1 hdl =>
          split at hres
          case h_1 => exact absurd hres (by simp)
          case h_2 value hsub =>
            split at hres
            case isFalse => exact absurd hres (by simp)
            case isTrue =>
              split at hres
              case h_1 => exact absurd hres (by simp)
              case h_2 dep2 hwl =>
                split at hres
                case isFalse => exact absurd hres (by simp)
                case isTrue =>
                  split at hres
                  case isFalse => exact absurd hres (by simp)
                  case isTrue =>
                    split at hres
                    case isFalse => exact absurd hres (by simp)
                    case isTrue =>
                      cases hres
                      exact ⟨dep1, dep2, value, hdl, hwl, hsub, rfl⟩

theorem send_tze_deposit_deposited_unchanged (env : BuildEnv) (s : TzeSender)
    (toEthAddr amount fee : Nat) :
    (send_tze_deposit env s toEthAddr amount fee).senderOf.deposited = s.deposited := by
  unfold send_tze_deposit
  repeat' split
  all_goals rfl

theorem initialize_tze_stf_deposited_unchanged (env : BuildEnv) (s : TzeSender)
    (fee : Nat) (prevout : TzeOutPoint × TzeOut) :
    (initialize_tze_stf env s fee prevout).senderOf.deposited = s.deposited := by
  unfold initialize_tze_stf
  repeat' split
  all_goals rfl

/-! ### C2 — `deposited` mirrors the locked value of the current TXO-ext -/

/-- C2: `send_tze_create` requires `deposited == 0` (fatal otherwise) and
leaves `deposited` equal to the CREATE output's value `LOCK_IN_VALUE`;
`send_tze_deposit` leaves `deposited` unchanged; `initialize_tze_stf`
leaves `deposited` unchanged and emits an STF output of value
`LOCK_IN_VALUE` (equal to `deposited` after the call whenever the
lifecycle precondition `deposited = LOCK_IN_VALUE` set up by the preceding
create holds); `progress_tze_stf` emits an STF output whose value equals
`deposited` after the call.  Together these keep `deposited` equal to the
value locked in the current bridge TXO-ext. -/
theorem deposited_tracks_locked_value (env : BuildEnv) (s : TzeSender)
    (fee amount toEthAddr : Nat) (prevC prevS : TzeOutPoint × TzeOut)
    (deps : List (TzeOutPoint × TzeOut)) (pd : List ProcessedDeposit)
    (pw : List ProcessedWithdrawal) :
    (s.deposited ≠ 0 → (send_tze_create env s fee).isOk = false) ∧
    ((send_tze_create env s fee).isOk = true →
      (send_tze_create env s fee).senderOf.deposited = LOCK_IN_VALUE ∧
      (send_tze_create env s fee).tzeOutOf.value = LOCK_IN_VALUE) ∧
    ((send_tze_deposit env s toEthAddr amount fee).senderOf.deposited = s.deposited) ∧
    ((initialize_tze_stf env s fee prevC).isOk = true →
      (initialize_tze_stf env s fee prevC).senderOf.deposited = s.deposited ∧
      (initialize_tze_stf env s fee prevC).tzeOutOf.value = LOCK_IN_VALUE ∧
      (s.deposited = LOCK_IN_VALUE →
        (initialize_tze_stf env s fee prevC).tzeOutOf.value
          = (initialize_tze_stf env s fee prevC).senderOf.deposited)) ∧
    ((progress_tze_stf env s fee prevS deps pd pw).isOk = true →
      (progress_tze_stf env s fee prevS deps pd pw).tzeOutOf.value
        = (progress_tze_stf env s fee prevS deps pd pw).senderOf.deposited) := by
  refine ⟨?_, ?_, ?_, ?_, ?_⟩
  · intro hne
    cases hres : send_tze_create env s fee with
    | ok r =>
      obtain ⟨v1, value, _, _, h0, _⟩ := send_tze_create_ok_spec env s fee r hres
      exact absurd h0 hne
    | err s' e => rfl
  · intro hok
    cases hres : send_tze_create env s fee with
    | err s' e => rw [hres] at hok; simp [SendResult.isOk] at hok
    | ok r =>
      obtain ⟨v1, value, _, _, _, hr⟩ := send_tze_create_ok_spec env s fee r hres
      rw [hr]
      exact ⟨rfl, rfl⟩
  · exact send_tze_deposit_deposited_unchanged env s toEthAddr amount fee
  · intro hok
    cases hres : initialize_tze_stf env s fee prevC with
    | err s' e => rw [hres] at hok; simp [SendResult.isOk] at hok
    | ok r =>
      obtain ⟨value, _, hr⟩ := initialize_tze_stf_ok_spec env s fee prevC r hres
      rw [hr]
      refine ⟨rfl, rfl, ?_⟩
      intro hd
      simp [SendResult.tzeOutOf, SendResult.senderOf, hd]
  · intro hok
    cases hres : progress_tze_stf env s fee prevS deps pd pw with
    | err s' e => rw [hres] at hok; simp [SendResult.isOk] at hok
    | ok r =>
      obtain ⟨dep1, dep2, value, _, _, _, hr⟩ :=
        progress_tze_stf_ok_spec env s fee prevS deps pd pw r hres
      rw [hr]
      rfl

/-- Witness for C2: the create part evaluated on a fresh sender — the
call succeeds and leaves `deposited = LOCK_IN_VALUE = 100000`, the value
of the CREATE output. -/
theorem deposited_tracks_locked_value_witness :
    (send_tze_create envW senderW 50000).senderOf.deposited = LOCK_IN_VALUE ∧
    (send_tze_create envW senderW 50000).tzeOutOf.value = LOCK_IN_VALUE :=
  (deposited_tracks_locked_value envW senderW 50000 20000 11 prevStfW prevStfW
    [depositOutW] [] [withdrawalW]).2.1 (by decide)

/-! ### C3 — vout index of the new TXO-ext -/

/-- C3: for every successful send, the returned outpoint of the new
TXO-ext has vout index `1 + |processed_withdrawals|` for
`progress_tze_stf` and vout index 1 for `send_tze_create`,
`send_tze_deposit` and `initialize_tze_stf` — in each case exactly the
number of transparent outputs of the built transaction, since transparent
outputs precede all TXO-ext outputs. -/
theorem new_txo_ext_vout_index (env : BuildEnv) (s : TzeSender)
    (fee amount toEthAddr : Nat) (prevC prevS : TzeOutPoint × TzeOut)
    (deps : List (TzeOutPoint × TzeOut)) (pd : List ProcessedDeposit)
    (pw : List ProcessedWithdrawal) :
    ((send_tze_create env s fee).isOk = true →
      (send_tze_create env s fee).outpointOf.n = 1 ∧
      (send_tze_create env s fee).outpointOf.n
        = (send_tze_create env s fee).txOf.transparentOutputs.length) ∧
    ((send_tze_deposit env s toEthAddr amount fee).isOk = true →
      (send_tze_deposit env s toEthAddr amount fee).outpointOf.n = 1 ∧
      (send_tze_deposit env s toEthAddr amount fee).outpointOf.n
        = (send_tze_deposit env s toEthAddr amount fee).txOf.transparentOutputs.length) ∧
    ((initialize_tze_stf env s fee prevC).isOk = true →
      (initialize_tze_stf env s fee prevC).outpointOf.n = 1 ∧
      (initialize_tze_stf env s fee prevC).outpointOf.n
        = (initialize_tze_stf env s fee prevC).txOf.transparentOutputs.length) ∧
    ((progress_tze_stf env s fee prevS deps pd pw).isOk = true →
      (progress_tze_stf env s fee prevS deps pd pw).outpointOf.n = 1 + pw.length ∧
      (progress_tze_stf env s fee prevS deps pd pw).outpointOf.n
        = (progress_tze_stf env s fee prevS deps pd pw).txOf.transparentOutputs.length) := by
  refine ⟨?_, ?_, ?_, ?_⟩
  · intro hok
    cases hres : send_tze_create env s fee with
    | err s' e => rw [hres] at hok; simp [SendResult.isOk] at hok
    | ok r =>
      obtain ⟨v1, value, _, _, _, hr⟩ := send_tze_create_ok_spec env s fee r hres
      rw [hr]
      exact ⟨rfl, rfl⟩
  · intro hok
    cases hres : send_tze_deposit env s toEthAddr amount fee with
    | err s' e => rw [hres] at hok; simp [SendResult.isOk] at hok
    | ok r =>
      obtain ⟨v1, value, _, _, hr⟩ := send_tze_deposit_ok_spec env s toEthAddr amount fee r hres
      rw [hr]
      exact ⟨rfl, rfl⟩
  · intro hok
    cases hres : initialize_tze_stf env s fee prevC with
    | err s' e => rw [hres] at hok; simp [SendResult.isOk] at hok
    | ok r =>
      obtain ⟨value, _, hr⟩ := initialize_tze_stf_ok_spec env s fee prevC r hres
      rw [hr]
      exact ⟨rfl, rfl⟩
  · intro hok
    cases hres : progress_tze_stf env s fee prevS deps pd pw with
    | err s' e => rw [hres] at hok; simp [SendResult.isOk] at hok
    | ok r =>
      obtain ⟨dep1, dep2, value, _, _, _, hr⟩ :=
        progress_tze_stf_ok_spec env s fee prevS deps pd pw r hres
      rw [hr]
      refine ⟨rfl, ?_⟩
      simp only [SendResult.outpointOf, SendResult.txOf, List.length_cons, List.length_map]
      omega

/-- Witness for C3: the progress part evaluated with one withdrawal — the
returned outpoint has vout index 2. -/
theorem new_txo_ext_vout_index_witness :
    (progress_tze_stf envW senderW1 50000 prevStfW [depositOutW] [] [withdrawalW]).outpointOf.n
      = 1 + [withdrawalW].length ∧
    (progress_tze_stf envW senderW1 50000 prevStfW [depositOutW] [] [withdrawalW]).outpointOf.n
      = (progress_tze_stf envW senderW1 50000 prevStfW [depositOutW]
          [] [withdrawalW]).txOf.transparentOutputs.length :=
  (new_txo_ext_vout_index envW senderW1 50000 20000 11 prevStfW prevStfW
    [depositOutW] [] [withdrawalW]).2.2.2 (by decide)

/-! ### C6 — failed builds and the `deposited` field -/

/-- An environment in which the fee-change output addition
(`add_fee_output`, i.e. the transparent builder's
`add_transparent_output`) fails and everything before it succeeds. -/
def envFeeOutFail : BuildEnv := { envW with feeOutputOk := false }

/-- Counterexample to C6 as stated: on a fresh sender (`deposited = 0`),
a `send_tze_create` whose fee-change output addition is rejected fails —
yet `deposited` is not restored to its pre-call value: it keeps the
`LOCK_IN_VALUE` assignment made before the failing step. -/
theorem build_failure_unwind_counterexample :
    (send_tze_create envFeeOutFail senderW 50000).isOk = false ∧
    ¬ (send_tze_create envFeeOutFail senderW 50000).senderOf.deposited
        = senderW.deposited := by
  decide

/-- C6 amended: a failed build does not restore `deposited`; the
assignments made before the failing step persist.  In `send_tze_create`,
a rejection of the fee-change output (which the code reaches only after
the `deposited = LOCK_IN_VALUE` assignment) leaves the sender with
`deposited = LOCK_IN_VALUE`, not with its pre-call value.  (A failure
inside `finish_tx` itself is an `unwrap` panic that aborts the whole
process rather than reverting anything.) -/
theorem create_failure_keeps_partial_deposited (env : BuildEnv) (s : TzeSender)
    (fee : Nat) (h0 : s.deposited = 0) (hget : env.getTxOk = true)
    (hin : env.feeInputOk = true) (hc : env.createOutOk = true)
    (hfee : fee + LOCK_IN_VALUE ≤ env.feeCoinValue)
    (hout : env.feeOutputOk = false) :
    (send_tze_create env s fee).isOk = false ∧
    (send_tze_create env s fee).senderOf.deposited = LOCK_IN_VALUE := by
  have h1 : zatSub env.feeCoinValue fee = some (env.feeCoinValue - fee) := by
    unfold zatSub
    rw [if_pos (by omega)]
  have h2 : zatSub (env.feeCoinValue - fee) LOCK_IN_VALUE
      = some (env.feeCoinValue - fee - LOCK_IN_VALUE) := by
    unfold zatSub
    rw [if_pos (by omega)]
  unfold send_tze_create
  simp only [hget, hin, hc, hout, h0, h1]
  simp only [h2]
  simp [SendResult.isOk, SendResult.senderOf]

/-- Witness for the amended C6: the concrete failing create of the
counterexample, with every hypothesis discharged. -/
theorem create_failure_keeps_partial_deposited_witness :
    (send_tze_create envFeeOutFail senderW 50000).isOk = false ∧
    (send_tze_create envFeeOutFail senderW 50000).senderOf.deposited = LOCK_IN_VALUE :=
  create_failure_keeps_partial_deposited envFeeOutFail senderW 50000
    (by decide) (by decide) (by decide) (by decide) (by decide) (by decide)

/-! ### C7 — fee-change value conservation -/

/-- C7: in every transaction kind built by the sender, the fee-change
transparent output satisfies `fee_change + fee + Σ (new non-fee
transparent outputs) + Σ (new TXO-ext outputs) = fee_input.value +
Σ (non-fee consumed TXO-ext inputs)` (stated additively, which is the
same equation without `Nat` truncation); for `initialize_tze_stf` and
`progress_tze_stf` the consumed TXO-ext input is the previous
CREATE / STF output, whose value is `LOCK_IN_VALUE` resp. `deposited`
under invariant I1.  A negative intermediate sum is fatal: the checked
subtraction's `unwrap` panics instead of producing a transaction. -/
theorem fee_change_value_conservation (env : BuildEnv) (s : TzeSender)
    (fee amount toEthAddr : Nat) (prevC prevS : TzeOutPoint × TzeOut)
    (deps : List (TzeOutPoint × TzeOut)) (pd : List ProcessedDeposit)
    (pw : List ProcessedWithdrawal) :
    ((send_tze_create env s fee).isOk = true →
      (send_tze_create env s fee).txOf.feeChangeValue + fee
          + (send_tze_create env s fee).txOf.nonFeeTransparentSum
          + (send_tze_create env s fee).txOf.tzeOutputsSum
        = env.feeCoinValue + (send_tze_create env s fee).txOf.tzeInputsSum) ∧
    ((send_tze_deposit env s toEthAddr amount fee).isOk = true →
      (send_tze_deposit env s toEthAddr amount fee).txOf.feeChangeValue + fee
          + (send_tze_deposit env s toEthAddr amount fee).txOf.nonFeeTransparentSum
          + (send_tze_deposit env s toEthAddr amount fee).txOf.tzeOutputsSum
        = env.feeCoinValue + (send_tze_deposit env s toEthAddr amount fee).txOf.tzeInputsSum) ∧
    (prevC.2.value = LOCK_IN_VALUE →
      (initialize_tze_stf env s fee prevC).isOk = true →
      (initialize_tze_stf env s fee prevC).txOf.feeChangeValue + fee
          + (initialize_tze_stf env s fee prevC).txOf.nonFeeTransparentSum
          + (initialize_tze_stf env s fee prevC).txOf.tzeOutputsSum
        = env.feeCoinValue + (initialize_tze_stf env s fee prevC).txOf.tzeInputsSum) ∧
    (prevS.2.value = s.deposited →
      (progress_tze_stf env s fee prevS deps pd pw).isOk = true →
      (progress_tze_stf env s fee prevS deps pd pw).txOf.feeChangeValue + fee
          + (progress_tze_stf env s fee prevS deps pd pw).txOf.nonFeeTransparentSum
          + (progress_tze_stf env s fee prevS deps pd pw).txOf.tzeOutputsSum
        = env.feeCoinValue + (progress_tze_stf env s fee prevS deps pd pw).txOf.tzeInputsSum) ∧
    (env.getTxOk = true → env.feeInputOk = true → env.feeCoinValue < fee →
      (send_tze_create env s fee).errKind = some SendErr.panic) := by
  refine ⟨?_, ?_, ?_, ?_, ?_⟩
  · intro hok
    cases hres : send_tze_create env s fee with
    | err s' e => rw [hres] at hok; simp [SendResult.isOk] at hok
    | ok r =>
      obtain ⟨v1, value, hs1, hs2, _, hr⟩ := send_tze_create_ok_spec env s fee r hres
      obtain ⟨hb1, hv1⟩ := zatSub_some hs1
      obtain ⟨hb2, hv2⟩ := zatSub_some hs2
      rw [hr]
      simp only [SendResult.txOf, BuiltTx.feeChangeValue, BuiltTx.nonFeeTransparentSum,
        BuiltTx.tzeOutputsSum, BuiltTx.tzeInputsSum, List.map, List.drop, List.sum_cons,
        List.sum_nil]
      omega
  · intro hok
    cases hres : send_tze_deposit env s toEthAddr amount fee with
    | err s' e => rw [hres] at hok; simp [SendResult.isOk] at hok
    | ok r =>
      obtain ⟨v1, value, hs1, hs2, hr⟩ := send_tze_deposit_ok_spec env s toEthAddr amount fee r hres
      obtain ⟨hb1, hv1⟩ := zatSub_some hs1
      obtain ⟨hb2, hv2⟩ := zatSub_some hs2
      rw [hr]
      simp only [SendResult.txOf, BuiltTx.feeChangeValue, BuiltTx.nonFeeTransparentSum,
        BuiltTx.tzeOutputsSum, BuiltTx.tzeInputsSum, List.map, List.drop, List.sum_cons,
        List.sum_nil]
      omega
  · intro hprev hok
    cases hres : initialize_tze_stf env s fee prevC with
    | err s' e => rw [hres] at hok; simp [SendResult.isOk] at hok
    | ok r =>
      obtain ⟨value, hs1, hr⟩ := initialize_tze_stf_ok_spec env s fee prevC r hres
      obtain ⟨hb1, hv1⟩ := zatSub_some hs1
      rw [hr]
      simp only [SendResult.txOf, BuiltTx.feeChangeValue, BuiltTx.nonFeeTransparentSum,
        BuiltTx.tzeOutputsSum, BuiltTx.tzeInputsSum, List.map, List.drop, List.sum_cons,
        List.sum_nil]
      omega
  · intro hprev hok
    cases hres : progress_tze_stf env s fee prevS deps pd pw with
    | err s' e => rw [hres] at hok; simp [SendResult.isOk] at hok
    | ok r =>
      obtain ⟨dep1, dep2, value, hdl, hwl, hsub, hr⟩ :=
        progress_tze_stf_ok_spec env s fee prevS deps pd pw r hres
      have hd1 := depositLoop_ok_sum env deps s.deposited 0 dep1 hdl
      obtain ⟨hw1, hw2⟩ := withdrawalLoop_ok_sum env pw dep1 0 dep2 hwl
      obtain ⟨hb1, hv1⟩ := zatSub_some hsub
      rw [hr]
      simp only [SendResult.txOf, BuiltTx.feeChangeValue, BuiltTx.nonFeeTransparentSum,
        BuiltTx.tzeOutputsSum, BuiltTx.tzeInputsSum, List.map_cons, List.map_nil,
        List.map_map, List.drop, List.sum_cons, List.sum_nil]
      have hcomp : (pw.map (Prod.snd ∘ fun w =>
          (TransparentAddress.publicKeyHash w.pubkeyHash, w.amount))).sum
            = (pw.map fun w => w.amount).sum := rfl
      unfold sumWithdrawals at hw1 hw2
      unfold sumDepositValues at hd1
      rw [hcomp]
      omega
  · intro hget hin hlt
    unfold send_tze_create
    rw [hget, hin, zatSub_lt hlt]
    simp [SendResult.errKind]

/-- Witness for C7: the progress conjunct on the concrete batch (fee coin
1,000,000; fee 50,000; one 90,000 deposit; one 30,000 withdrawal;
previous STF value 100,000 = deposited). -/
theorem fee_change_value_conservation_witness :
    (progress_tze_stf envW senderW1 50000 prevStfW [depositOutW] [] [withdrawalW]).txOf.feeChangeValue
        + 50000
        + (progress_tze_stf envW senderW1 50000 prevStfW [depositOutW] [] [withdrawalW]).txOf.nonFeeTransparentSum
        + (progress_tze_stf envW senderW1 50000 prevStfW [depositOutW] [] [withdrawalW]).txOf.tzeOutputsSum
      = envW.feeCoinValue
        + (progress_tze_stf envW senderW1 50000 prevStfW [depositOutW] [] [withdrawalW]).txOf.tzeInputsSum :=
  (fee_change_value_conservation envW senderW1 50000 20000 11 prevStfW prevStfW
    [depositOutW] [] [withdrawalW]).2.2.2.1 (by decide) (by decide)

/-! ### C8 — fee input selection and rotation -/

/-- C8: every transaction built by the sender spends exactly vout 0 of
the recorded `fee_txid` as its only transparent input, and after each
successful send `fee_txid` equals the hash of the submitted transaction;
the initial `fee_txid` is the coinbase transaction of the block exactly
`MIN_TRANSPARENT_COINBASE_MATURITY` blocks below the target height, and
the lookup is fatal (panic) when the target height is below that
maturity. -/
theorem fee_input_is_vout0_and_rotates (env : BuildEnv) (s : TzeSender)
    (fee amount toEthAddr : Nat) (prevC prevS : TzeOutPoint × TzeOut)
    (deps : List (TzeOutPoint × TzeOut)) (pd : List ProcessedDeposit)
    (pw : List ProcessedWithdrawal) (zenv : ZebraEnv)
    (targetHeight bh cb : Nat) (rest : List Nat) :
    ((send_tze_create env s fee).isOk = true →
      (send_tze_create env s fee).txOf.transparentInputs = [(s.feeTxid, 0)] ∧
      (send_tze_create env s fee).senderOf.feeTxid = (send_tze_create env s fee).txOf.hash) ∧
    ((send_tze_deposit env s toEthAddr amount fee).isOk = true →
      (send_tze_deposit env s toEthAddr amount fee).txOf.transparentInputs = [(s.feeTxid, 0)] ∧
      (send_tze_deposit env s toEthAddr amount fee).senderOf.feeTxid
        = (send_tze_deposit env s toEthAddr amount fee).txOf.hash) ∧
    ((initialize_tze_stf env s fee prevC).isOk = true →
      (initialize_tze_stf env s fee prevC).txOf.transparentInputs = [(s.feeTxid, 0)] ∧
      (initialize_tze_stf env s fee prevC).senderOf.feeTxid
        = (initialize_tze_stf env s fee prevC).txOf.hash) ∧
    ((progress_tze_stf env s fee prevS deps pd pw).isOk = true →
      (progress_tze_stf env s fee prevS deps pd pw).txOf.transparentInputs = [(s.feeTxid, 0)] ∧
      (progress_tze_stf env s fee prevS deps pd pw).senderOf.feeTxid
        = (progress_tze_stf env s fee prevS deps pd pw).txOf.hash) ∧
    (targetHeight < MIN_TRANSPARENT_COINBASE_MATURITY →
      spendable_coinbase_txid zenv targetHeight = .error .panic) ∧
    (MIN_TRANSPARENT_COINBASE_MATURITY ≤ targetHeight →
      zenv.getBlockHash (targetHeight - MIN_TRANSPARENT_COINBASE_MATURITY) = some bh →
      zenv.getBlock bh = some (cb :: rest) →
      spendable_coinbase_txid zenv targetHeight = .ok cb) ∧
    initialFeeTxid zenv = spendable_coinbase_txid zenv (zenv.blockCount + 1) := by
  refine ⟨?_, ?_, ?_, ?_, ?_, ?_, rfl⟩
  · intro hok
    cases hres : send_tze_create env s fee with
    | err s' e => rw [hres] at hok; simp [SendResult.isOk] at hok
    | ok r =>
      obtain ⟨v1, value, _, _, _, hr⟩ := send_tze_create_ok_spec env s fee r hres
      rw [hr]
      exact ⟨rfl, rfl⟩
  · intro hok
    cases hres : send_tze_deposit env s toEthAddr amount fee with
    | err s' e => rw [hres] at hok; simp [SendResult.isOk] at hok
    | ok r =>
      obtain ⟨v1, value, _, _, hr⟩ := send_tze_deposit_ok_spec env s toEthAddr amount fee r hres
      rw [hr]
      exact ⟨rfl, rfl⟩
  · intro hok
    cases hres : initialize_tze_stf env s fee prevC with
    | err s' e => rw [hres] at hok; simp [SendResult.isOk] at hok
    | ok r =>
      obtain ⟨value, _, hr⟩ := initialize_tze_stf_ok_spec env s fee prevC r hres
      rw [hr]
      exact ⟨rfl, rfl⟩
  · intro hok
    cases hres : progress_tze_stf env s fee prevS deps pd pw with
    | err s' e => rw [hres] at hok; simp [SendResult.isOk] at hok
    | ok r =>
      obtain ⟨dep1, dep2, value, _, _, _, hr⟩ :=
        progress_tze_stf_ok_spec env s fee prevS deps pd pw r hres
      rw [hr]
      exact ⟨rfl, rfl⟩
  · intro hlt
    unfold spendable_coinbase_txid
    rw [if_pos hlt]
  · intro hge hhash hblk
    unfold spendable_coinbase_txid
    rw [if_neg (by omega), hhash]
    simp only [hblk]

/-- A concrete Chain-Z node view: 104 blocks; height 5 hashes to 13; the
block with hash 13 holds the single coinbase transaction 77. -/
def zebraEnvW : ZebraEnv :=
  { blockCount := 104,
    getBlockHash := fun h => if h = 5 then some 13 else none,
    getBlock := fun h => if h = 13 then some [77] else none }

/-- Witness for C8: the create conjunct on the concrete environment
(fee input `(7, 0)`, rotated fee txid 42), and the coinbase selection on
a concrete three-entry chain view at target height 105. -/
theorem fee_input_is_vout0_and_rotates_witness :
    ((send_tze_create envW senderW 50000).txOf.transparentInputs
        = [(senderW.feeTxid, 0)] ∧
      (send_tze_create envW senderW 50000).senderOf.feeTxid
        = (send_tze_create envW senderW 50000).txOf.hash) ∧
    spendable_coinbase_txid zebraEnvW 105 = .ok 77 :=
  ⟨(fee_input_is_vout0_and_rotates envW senderW 50000 20000 11 prevStfW prevStfW
      [depositOutW] [] [withdrawalW] zebraEnvW 105 13 77 []).1 (by decide),
   (fee_input_is_vout0_and_rotates envW senderW 50000 20000 11 prevStfW prevStfW
      [depositOutW] [] [withdrawalW] zebraEnvW 105 13 77 []).2.2.2.2.2.1
     (by decide) (by decide) (by decide)⟩

/-! ### C4 — the zcash watcher extracts exactly the well-formed deposits -/

theorem depositStep_eq (f : Nat → List Nat → Option EthBridgePrecondition)
    (txHash : Nat) (acc : List ZecToEthTransfer × List (TzeOutPoint × TzeOut))
    (p : Nat × ZOutput) :
    depositStep f txHash acc p =
      match depositOfOutput f txHash p.1 p.2 with
      | none => acc
      | some pr => (acc.1 ++ [pr.1], acc.2 ++ [pr.2]) := by
  rcases p with ⟨n, o⟩
  rcases o with ⟨ls, v⟩
  cases ls with
  | script raw => rfl
  | extension tze =>
    simp only [depositStep, depositOfOutput]
    by_cases h : tze.extensionId = EXTENSION_ETH_BRIDGE
    · simp only [if_pos h]
      cases hf : f tze.mode tze.payload with
      | none => rfl
      | some pr =>
        cases pr with
        | deposit toAddr stfId => rfl
        | create => rfl
        | stf => rfl
    · simp only [if_neg h]

theorem foldl_depositStep (f : Nat → List Nat → Option EthBridgePrecondition)
    (txHash : Nat) :
    ∀ (l : List (Nat × ZOutput)) (acc : List ZecToEthTransfer × List (TzeOutPoint × TzeOut)),
      l.foldl (depositStep f txHash) acc
        = (acc.1 ++ ((l.filterMap fun p => depositOfOutput f txHash p.1 p.2).map Prod.fst),
           acc.2 ++ ((l.filterMap fun p => depositOfOutput f txHash p.1 p.2).map Prod.snd)) := by
  intro l
  induction l with
  | nil => intro acc; simp
  | cons p rest ih =>
    intro acc
    rw [List.foldl_cons, depositStep_eq]
    cases hd : depositOfOutput f txHash p.1 p.2 with
    | none =>
      rw [ih]
      simp [List.filterMap_cons, hd]
    | some pr =>
      rw [ih]
      simp [List.filterMap_cons, hd]

theorem foldl_txStep (f : Nat → List Nat → Option EthBridgePrecondition) :
    ∀ (l : List ZTransaction) (acc : List ZecToEthTransfer × List (TzeOutPoint × TzeOut)),
      l.foldl (fun acc2 tx => tx.outputs.enum.foldl (depositStep f tx.hash) acc2) acc
        = (acc.1 ++ ((l.flatMap fun t =>
              t.outputs.enum.filterMap fun p => depositOfOutput f t.hash p.1 p.2).map Prod.fst),
           acc.2 ++ ((l.flatMap fun t =>
              t.outputs.enum.filterMap fun p => depositOfOutput f t.hash p.1 p.2).map Prod.snd)) := by
  intro l
  induction l with
  | nil => intro acc; simp
  | cons t rest ih =>
    intro acc
    rw [List.foldl_cons, foldl_depositStep, ih]
    simp [List.flatMap_cons, List.append_assoc]

theorem foldl_blockStep (f : Nat → List Nat → Option EthBridgePrecondition) :
    ∀ (l : List ZBlock) (acc : List ZecToEthTransfer × List (TzeOutPoint × TzeOut)),
      l.foldl
          (fun acc block =>
            block.transactions.foldl
              (fun acc2 tx => tx.outputs.enum.foldl (depositStep f tx.hash) acc2) acc)
          acc
        = (acc.1 ++ ((depositsSpec f l).map Prod.fst),
           acc.2 ++ ((depositsSpec f l).map Prod.snd)) := by
  intro l
  induction l with
  | nil => intro acc; simp [depositsSpec]
  | cons b rest ih =>
    intro acc
    rw [List.foldl_cons, foldl_txStep, ih]
    simp [depositsSpec, List.flatMap_cons, List.append_assoc]

/-- C4: `extract_zec_to_eth_transfers` returns exactly one
`(transfer, (outpoint, TzeOut))` pair per output whose lock script is a
TXO-ext with the bridge extension id and whose payload decodes as a
DEPOSIT precondition (`depositOfOutput` spells out the per-output rule:
the transfer's address is the payload's recipient, its amount the
output's value, and the outpoint carries the enclosing transaction's hash
with the output's vout index); all other outputs contribute nothing, and
the result lists both components in block-then-transaction-then-output
order (`depositsSpec`). -/
theorem extract_zec_to_eth_transfers_spec
    (f : Nat → List Nat → Option EthBridgePrecondition) (blocks : List ZBlock) :
    extract_zec_to_eth_transfers f blocks
      = ((depositsSpec f blocks).map Prod.fst, (depositsSpec f blocks).map Prod.snd) := by
  unfold extract_zec_to_eth_transfers
  rw [foldl_blockStep]
  simp

/-! ### C9 / C10 — the eth watcher -/

theorem decodeWithdrawalLogs_all_ok (logs : List EthLog)
    (hdec : ∀ l ∈ logs, ∃ e, l.decoded = some e ∧ e.amount < 2 ^ 64) :
    decodeWithdrawalLogs logs = .ok (logs.map transferOfLog) := by
  induction logs with
  | nil => rfl
  | cons l rest ih =>
    obtain ⟨e, he, hlt⟩ := hdec l (by simp)
    have hrest := ih fun x hx => hdec x (by simp [hx])
    simp only [decodeWithdrawalLogs, he, hrest, if_pos hlt]
    simp [transferOfLog, he]

theorem decodeWithdrawalLogs_overflow (logs : List EthLog)
    (hdec : ∀ l ∈ logs, ∃ e, l.decoded = some e)
    (hbig : ∃ l ∈ logs, ∀ e, l.decoded = some e → 2 ^ 64 ≤ e.amount) :
    decodeWithdrawalLogs logs = .error .panic := by
  induction logs with
  | nil => obtain ⟨l, hl, _⟩ := hbig; exact absurd hl (by simp)
  | cons l rest ih =>
    obtain ⟨e, he⟩ := hdec l (by simp)
    obtain ⟨lb, hlb, hbb⟩ := hbig
    by_cases hfirst : 2 ^ 64 ≤ e.amount
    · simp only [decodeWithdrawalLogs, he]
      rw [if_neg (by omega)]
    · have hlbrest : lb ∈ rest := by
        rcases List.mem_cons.mp hlb with h | h
        · subst h; exact absurd (hbb e he) hfirst
        · exact h
      have hrest := ih (fun x hx => hdec x (by simp [hx])) ⟨lb, hlbrest, hbb⟩
      simp only [decodeWithdrawalLogs, he, hrest]
      rw [if_pos (by omega)]

/-- C9: for every non-empty block list, `extract_eth_to_zec_transfers`
returns (when every filtered log decodes and every decoded amount fits in
64 bits) exactly one transfer per `WithdrawalRequested` log of the bridge
contract in the block-number range `[first, last]`, in log order, with
`pubkey_hash` and `amount` taken from the decoded event; and when every
filtered log decodes but some decoded amount does not fit in 64 bits, the
call is fatal (`expect` panics) rather than truncating or skipping. -/
theorem extract_eth_to_zec_transfers_spec (env : EthEnv) (blocks : List EthBlock)
    (fb lb : EthBlock) (hfirst : blocks.head? = some fb)
    (hlast : blocks.getLast? = some lb) :
    ((∀ l ∈ getLogs env fb.number lb.number, ∃ e, l.decoded = some e ∧ e.amount < 2 ^ 64) →
      extract_eth_to_zec_transfers env blocks
        = .ok ((getLogs env fb.number lb.number).map transferOfLog)) ∧
    ((∀ l ∈ getLogs env fb.number lb.number, ∃ e, l.decoded = some e) →
      (∃ l ∈ getLogs env fb.number lb.number, ∀ e, l.decoded = some e → 2 ^ 64 ≤ e.amount) →
      extract_eth_to_zec_transfers env blocks = .error .panic) := by
  constructor
  · intro hdec
    unfold extract_eth_to_zec_transfers
    rw [hfirst, hlast]
    exact decodeWithdrawalLogs_all_ok _ hdec
  · intro hdec hbig
    unfold extract_eth_to_zec_transfers
    rw [hfirst, hlast]
    exact decodeWithdrawalLogs_overflow _ hdec hbig

/-- A concrete Chain-E environment: bridge at address 21; one matching
log in block 4 decoding to (pubkey hash 8, amount 90000), one log of an
unrelated contract, and one matching log outside the block range. -/
def ethEnvW : EthEnv :=
  { bridgeAddress := 21,
    logs :=
      [{ address := 21, topic0 := WITHDRAWAL_REQUESTED_SIGNATURE_HASH, blockNumber := 4,
         decoded := some { pubkeyHash := 8, amount := 90000 } },
       { address := 22, topic0 := WITHDRAWAL_REQUESTED_SIGNATURE_HASH, blockNumber := 4,
         decoded := some { pubkeyHash := 9, amount := 1 } },
       { address := 21, topic0 := WITHDRAWAL_REQUESTED_SIGNATURE_HASH, blockNumber := 9,
         decoded := some { pubkeyHash := 10, amount := 2 } }] }

/-- Witness for C9: on blocks 3..5 of the concrete environment the
watcher returns exactly the one in-range bridge withdrawal. -/
theorem extract_eth_to_zec_transfers_spec_witness :
    extract_eth_to_zec_transfers ethEnvW [{ number := 3 }, { number := 4 }, { number := 5 }]
      = .ok ((getLogs ethEnvW 3 5).map transferOfLog) :=
  (extract_eth_to_zec_transfers_spec ethEnvW
      [{ number := 3 }, { number := 4 }, { number := 5 }]
      { number := 3 } { number := 5 } (by decide) (by decide)).1 (by decide)

/-- C10: `extract_eth_to_zec_transfers` panics on an empty blocks slice —
it unwraps `blocks.first()` (and `blocks.last()`) to build the log
filter, so a non-empty `blocks` argument is an implicit precondition of
the public interface. -/
theorem extract_eth_to_zec_transfers_empty_panics (env : EthEnv) :
    extract_eth_to_zec_transfers env [] = .error .panic := rfl

/-! ### C5 — the mempool-aware UTXO view -/

/-- All spent-outpoint keys the mempool loop records. -/
def spentKeysAll (env : MempoolEnv) : List (Nat × Nat) :=
  env.mempoolTxIds.flatMap fun tid =>
    match env.fetchTx tid with
    | none => []
    | some tx => spentKeysOfTx env.confirmedUtxos tx

theorem collectMempool_eq_aux (env : MempoolEnv) (target : TransparentAddress) :
    ∀ (ids : List Nat) (acc : List (Nat × Nat) × List Utxo),
      ids.foldl
          (fun acc tid =>
            match env.fetchTx tid with
            | none => acc
            | some tx =>
              (acc.1 ++ spentKeysOfTx env.confirmedUtxos tx,
               acc.2 ++ mempoolUtxosOfTx target tid tx))
          acc
        = (acc.1 ++ ids.flatMap (fun tid =>
              match env.fetchTx tid with
              | none => []
              | some tx => spentKeysOfTx env.confirmedUtxos tx),
           acc.2 ++ ids.flatMap (fun tid =>
              match env.fetchTx tid with
              | none => []
              | some tx => mempoolUtxosOfTx target tid tx)) := by
  intro ids
  induction ids with
  | nil => intro acc; simp
  | cons tid rest ih =>
    intro acc
    rw [List.foldl_cons]
    cases hf : env.fetchTx tid with
    | none =>
      rw [ih]
      simp [List.flatMap_cons, hf]
    | some tx =>
      rw [ih]
      simp [List.flatMap_cons, hf, List.append_assoc]

theorem collectMempool_eq (env : MempoolEnv) (target : TransparentAddress) :
    collectMempool env target = (spentKeysAll env, mempoolUtxosSpec env target) := by
  unfold collectMempool spentKeysAll mempoolUtxosSpec
  rw [collectMempool_eq_aux]
  simp

theorem spent_key_iff (env : MempoolEnv) (u : Utxo) (hu : u ∈ env.confirmedUtxos) :
    (spentKeysAll env).contains (u.txid, u.outputIndex) = spentInMempool env u := by
  have hiff : (u.txid, u.outputIndex) ∈ spentKeysAll env ↔ spentInMempool env u = true := by
    constructor
    · intro hmem
      obtain ⟨tid, htid, hkey⟩ := List.mem_flatMap.mp hmem
      unfold spentInMempool
      rw [List.any_eq_true]
      refine ⟨tid, htid, ?_⟩
      cases hf : env.fetchTx tid with
      | none => rw [hf] at hkey; simp at hkey
      | some tx =>
        rw [hf] at hkey
        unfold spentKeysOfTx at hkey
        obtain ⟨i, hi, hkey2⟩ := List.mem_flatMap.mp hkey
        obtain ⟨u', hu', hkeyeq⟩ := List.mem_map.mp hkey2
        rw [List.mem_filter] at hu'
        rw [List.any_eq_true]
        refine ⟨i, hi, ?_⟩
        have h1 : u'.txid = u.txid ∧ u'.outputIndex = u.outputIndex := by
          have := Prod.mk.injEq u'.txid u'.outputIndex u.txid u.outputIndex ▸ hkeyeq
          exact ⟨congrArg Prod.fst hkeyeq, congrArg Prod.snd hkeyeq⟩
        have h2 := hu'.2
        simp only [Bool.and_eq_true, beq_iff_eq] at h2 ⊢
        omega
    · intro hs
      unfold spentInMempool at hs
      rw [List.any_eq_true] at hs
      obtain ⟨tid, htid, htx⟩ := hs
      cases hf : env.fetchTx tid with
      | none => rw [hf] at htx; simp at htx
      | some tx =>
        rw [hf] at htx
        rw [List.any_eq_true] at htx
        obtain ⟨i, hi, hmatch⟩ := htx
        apply List.mem_flatMap.mpr
        refine ⟨tid, htid, ?_⟩
        rw [hf]
        unfold spentKeysOfTx
        apply List.mem_flatMap.mpr
        refine ⟨i, hi, ?_⟩
        apply List.mem_map.mpr
        exact ⟨u, List.mem_filter.mpr ⟨hu, hmatch⟩, rfl⟩
  have hc : (spentKeysAll env).contains (u.txid, u.outputIndex) = true
      ↔ (u.txid, u.outputIndex) ∈ spentKeysAll env := by
    simp
  cases h1 : (spentKeysAll env).contains (u.txid, u.outputIndex) with
  | true => exact (hiff.mp (hc.mp h1)).symm
  | false =>
    cases h2 : spentInMempool env u with
    | true => exact absurd (hc.mpr (hiff.mpr h2)) (by rw [h1]; simp)
    | false => rfl

theorem mempoolUtxosSpec_height (env : MempoolEnv) (target : TransparentAddress) :
    ∀ u ∈ mempoolUtxosSpec env target, u.height = 0 := by
  intro u hu
  unfold mempoolUtxosSpec at hu
  obtain ⟨tid, _, hmem⟩ := List.mem_flatMap.mp hu
  cases hf : env.fetchTx tid with
  | none => rw [hf] at hmem; simp at hmem
  | some tx =>
    rw [hf] at hmem
    unfold mempoolUtxosOfTx at hmem
    obtain ⟨p, _, hp⟩ := List.mem_filterMap.mp hmem
    unfold mempoolUtxoOfOutput at hp
    cases hrec : p.2.recipient with
    | none => rw [hrec] at hp; simp at hp
    | some a =>
      simp only [hrec] at hp
      by_cases ha : a = target
      · rw [if_pos ha] at hp
        cases hp
        rfl
      · rw [if_neg ha] at hp
        simp at hp

/-- C5: `get_address_utxos_with_mempool` returns exactly the confirmed
UTXOs of the address minus those whose `(txid, vout)` is spent by an
input of a successfully parsed mempool transaction
(`spentInMempool`), followed by one synthesized UTXO for every output of
a parsed mempool transaction that pays the target address
(`mempoolUtxosSpec`), each synthesized UTXO carrying `height = 0`. -/
theorem get_address_utxos_with_mempool_spec (env : MempoolEnv)
    (target : TransparentAddress) :
    get_address_utxos_with_mempool env target
      = (env.confirmedUtxos.filter fun u => !spentInMempool env u)
          ++ mempoolUtxosSpec env target ∧
    (∀ u ∈ mempoolUtxosSpec env target, u.height = 0) := by
  refine ⟨?_, mempoolUtxosSpec_height env target⟩
  unfold get_address_utxos_with_mempool
  rw [collectMempool_eq]
  simp only []
  congr 1
  apply List.filter_congr
  intro u hu
  rw [spent_key_iff env u hu]

/-- A concrete target address for the mempool-view witness. -/
def targetM : TransparentAddress := .publicKeyHash 3

/-- A confirmed UTXO that the concrete mempool transaction spends. -/
def utxoA : Utxo :=
  { address := targetM, txid := 100, outputIndex := 0, script := [1],
    value := 500, height := 10 }

/-- A confirmed UTXO left untouched by the mempool. -/
def utxoB : Utxo :=
  { address := targetM, txid := 101, outputIndex := 1, script := [1],
    value := 600, height := 11 }

/-- A concrete node view: two confirmed UTXOs and one mempool transaction
that spends `utxoA` and pays 450 back to the target address. -/
def envM : MempoolEnv :=
  { confirmedUtxos := [utxoA, utxoB],
    mempoolTxIds := [200],
    fetchTx := fun tid =>
      if tid = 200 then
        some { vin := [{ prevTxid := 100, prevVout := 0 }],
               vout := [{ recipient := some targetM, script := [2], value := 450 }] }
      else none }

/-- Witness for C5: on the concrete scenario the result is the surviving
confirmed UTXO followed by the synthesized height-0 mempool UTXO. -/
theorem get_address_utxos_with_mempool_spec_witness :
    get_address_utxos_with_mempool envM targetM
      = (envM.confirmedUtxos.filter fun u => !spentInMempool envM u)
          ++ mempoolUtxosSpec envM targetM ∧
    get_address_utxos_with_mempool envM targetM
      = [utxoB,
         { address := targetM, txid := 200, outputIndex := 0,
           script := [2], value := 450, height := 0 }] :=
  ⟨(get_address_utxos_with_mempool_spec envM targetM).1, by decide⟩

end ZcashEthBridge
